import Mathlib

/-!
Verification of the deep-research-server core against its specification.

The JavaScript source under `src/` is shallowly embedded below: pure string
manipulation functions are translated to Lean functions on `List Char` /
`String`, the JSON salvage parser (`safeJsonParse`) to total Lean functions
over an explicit `Json` value type, and the asynchronous orchestration
(`performDirectResearch` and the helpers it calls) to pure functions over an
explicit environment record that resolves every external interaction (LLM
responses, search backend responses, API-key state).  All definitions use
structural (fuel-based) recursion so that they evaluate by kernel reduction.
-/

set_option linter.unusedVariables false

namespace DeepResearch

/-- The left-brace character, kept out of literals. -/
def lbrace : Char := Char.ofNat 123

/-- The right-brace character, kept out of literals. -/
def rbrace : Char := Char.ofNat 125

/-- The single-quote character. -/
def squote : Char := Char.ofNat 39

/-- JavaScript whitespace, the character class `\s` of JS regular expressions
and the set stripped by `String.prototype.trim`: ASCII whitespace plus the
Unicode space separators, line separators and the BOM. -/
def jsWs (c : Char) : Bool :=
  c = ' ' || c = '\t' || c = '\n' || c = '\x0b' || c = '\x0c' || c = '\r' ||
  c.toNat = 160 || c.toNat = 0x1680 ||
  (0x2000 ≤ c.toNat && c.toNat ≤ 0x200a) ||
  c.toNat = 0x2028 || c.toNat = 0x2029 || c.toNat = 0x202f ||
  c.toNat = 0x205f || c.toNat = 0x3000 || c.toNat = 0xfeff

/-- ASCII decimal digit, the `\d` / `[0-9]` class of JS regular expressions. -/
def jsDigit (c : Char) : Bool := '0' ≤ c && c ≤ '9'

/-- JS `String.prototype.trim` on a character list. -/
def jsTrim (cs : List Char) : List Char :=
  ((cs.dropWhile jsWs).reverse.dropWhile jsWs).reverse

/-- JS `string.split(sep)` for a single-character separator.
`"".split` gives `[""]`, a trailing separator gives a trailing `""`. -/
def jsSplit (sep : Char) : List Char → List (List Char)
  | [] => [[]]
  | c :: cs =>
    let r := jsSplit sep cs
    if c = sep then [] :: r
    else
      match r with
      | [] => [[c]]
      | h :: t => (c :: h) :: t

/-- Truthiness of a JS value held in an `Option String` slot (`undefined` or a
string): `undefined` and `""` are falsy. -/
def truthyOptStr : Option String → Bool
  | none => false
  | some s => s ≠ ""

/-- JS `x || d` for an optional string `x` with string default `d`. -/
def jsOrElse (x : Option String) (d : String) : String :=
  match x with
  | some s => if s = "" then d else s
  | none => d

/-! ## JSON values and `JSON.parse`

`Json` is the value domain of `JSON.parse`.  Numbers are kept as their source
literal: the claims under verification never inspect numeric values, and the
literal determines the parsed double.  Objects keep their fields in source
order; lookups take the last binding, matching `JSON.parse` semantics for
duplicate keys. -/

inductive Json where
  | null
  | bool (b : Bool)
  | num (lit : String)
  | str (s : String)
  | arr (elems : List Json)
  | obj (fields : List (String × Json))
  deriving Repr

/-- JSON whitespace (the four characters `JSON.parse` skips between tokens). -/
def jsonWs (c : Char) : Bool := c = ' ' || c = '\t' || c = '\n' || c = '\r'

/-- Skip JSON inter-token whitespace. -/
def skipJsonWs (cs : List Char) : List Char := cs.dropWhile jsonWs

/-- Hexadecimal digit test. -/
def isHexDig (c : Char) : Bool :=
  jsDigit c || ('a' ≤ c && c ≤ 'f') || ('A' ≤ c && c ≤ 'F')

/-- Value of a hexadecimal digit character. -/
def hexVal (c : Char) : Nat :=
  if jsDigit c then c.toNat - 48
  else if 'a' ≤ c && c ≤ 'f' then c.toNat - 87
  else if 'A' ≤ c && c ≤ 'F' then c.toNat - 55
  else 0

/-- Decode one JSON string body (after the opening quote), accumulating into
`acc`.  Handles the escape sequences of the JSON grammar; a raw control
character or a malformed escape fails, as in `JSON.parse`.  A `\u` escape
denoting a surrogate code unit maps to the default character (the claims never
touch such inputs). -/
def parseStringGo : List Char → List Char → Option (String × List Char)
  | acc, [] => none
  | acc, c :: rest =>
    if c = '"' then some (String.mk acc.reverse, rest)
    else if c = '\\' then
      match rest with
      | [] => none
      | e :: r2 =>
        if e = '"' then parseStringGo ('"' :: acc) r2
        else if e = '\\' then parseStringGo ('\\' :: acc) r2
        else if e = '/' then parseStringGo ('/' :: acc) r2
        else if e = 'b' then parseStringGo ('\x08' :: acc) r2
        else if e = 'f' then parseStringGo ('\x0c' :: acc) r2
        else if e = 'n' then parseStringGo ('\n' :: acc) r2
        else if e = 'r' then parseStringGo ('\r' :: acc) r2
        else if e = 't' then parseStringGo ('\t' :: acc) r2
        else if e = 'u' then
          match r2 with
          | h1 :: h2 :: h3 :: h4 :: r6 =>
            if isHexDig h1 && isHexDig h2 && isHexDig h3 && isHexDig h4 then
              let code := 4096 * hexVal h1 + 256 * hexVal h2 + 16 * hexVal h3 + hexVal h4
              parseStringGo (Char.ofNat code :: acc) r6
            else none
          | _ => none
        else none
    else if c.toNat < 32 then none
    else parseStringGo (c :: acc) rest

/-- Parse a JSON number literal, returning the literal text and the rest.
Grammar: `-? (0 | [1-9][0-9]*) (. [0-9]+)? ([eE] [+-]? [0-9]+)?`. -/
def parseNumberLit (cs : List Char) : Option (String × List Char) :=
  let (sign, cs1) :=
    match cs with
    | '-' :: r => (['-'], r)
    | _ => (([] : List Char), cs)
  let intPart := cs1.takeWhile jsDigit
  let cs2 := cs1.dropWhile jsDigit
  if intPart.length = 0 then none
  else if intPart.length > 1 && intPart.headD '0' = '0' then none
  else
    let (frac, cs3) :=
      match cs2 with
      | '.' :: r =>
        let ds := r.takeWhile jsDigit
        if ds.length = 0 then (none, cs2) else (some ('.' :: ds), r.dropWhile jsDigit)
      | _ => ((none : Option (List Char)), cs2)
    match frac with
    | none =>
      match cs2 with
      | '.' :: _ => none
      | _ =>
        let (expPart, cs4) :=
          match cs2 with
          | e :: r =>
            if e = 'e' || e = 'E' then
              let (es, r1) :=
                match r with
                | '+' :: r2 => ([e, '+'], r2)
                | '-' :: r2 => ([e, '-'], r2)
                | _ => ([e], r)
              let ds := r1.takeWhile jsDigit
              if ds.length = 0 then (none, cs2) else (some (es ++ ds), r1.dropWhile jsDigit)
            else ((none : Option (List Char)), cs2)
          | _ => ((none : Option (List Char)), cs2)
        match expPart with
        | none =>
          match cs2 with
          | e :: _ => if e = 'e' || e = 'E' then none else some (String.mk (sign ++ intPart), cs2)
          | _ => some (String.mk (sign ++ intPart), cs2)
        | some ep => some (String.mk (sign ++ intPart ++ ep), cs4)
    | some fp =>
      let (expPart, cs4) :=
        match cs3 with
        | e :: r =>
          if e = 'e' || e = 'E' then
            let (es, r1) :=
              match r with
              | '+' :: r2 => ([e, '+'], r2)
              | '-' :: r2 => ([e, '-'], r2)
              | _ => ([e], r)
            let ds := r1.takeWhile jsDigit
            if ds.length = 0 then (none, cs3) else (some (es ++ ds), r1.dropWhile jsDigit)
          else ((none : Option (List Char)), cs3)
        | _ => ((none : Option (List Char)), cs3)
      match expPart with
      | none =>
        match cs3 with
        | e :: _ => if e = 'e' || e = 'E' then none else some (String.mk (sign ++ intPart ++ fp), cs3)
        | _ => some (String.mk (sign ++ intPart ++ fp), cs3)
      | some ep => some (String.mk (sign ++ intPart ++ fp ++ ep), cs4)

mutual

/-- Recursive-descent JSON value parser with explicit fuel (structural
recursion so that it evaluates by kernel reduction).  The fuel supplied by
`jsonParse` always suffices: every recursive call consumes input. -/
def parseValue : Nat → List Char → Option (Json × List Char)
  | 0, _ => none
  | f + 1, cs =>
    let cs := skipJsonWs cs
    match cs with
    | 'n' :: 'u' :: 'l' :: 'l' :: rest => some (.null, rest)
    | 't' :: 'r' :: 'u' :: 'e' :: rest => some (.bool true, rest)
    | 'f' :: 'a' :: 'l' :: 's' :: 'e' :: rest => some (.bool false, rest)
    | '"' :: rest =>
      match parseStringGo [] rest with
      | some (s, r) => some (.str s, r)
      | none => none
    | '[' :: rest =>
      match skipJsonWs rest with
      | ']' :: r2 => some (.arr [], r2)
      | r2 =>
        match parseElems f r2 with
        | some (es, r) => some (.arr es, r)
        | none => none
    | c :: rest =>
      if c = lbrace then
        match skipJsonWs rest with
        | r2 =>
          match r2 with
          | d :: r3 =>
            if d = rbrace then some (.obj [], r3)
            else
              match parseMembers f r2 with
              | some (ms, r) => some (.obj ms, r)
              | none => none
          | [] => none
      else
        match parseNumberLit (c :: rest) with
        | some (lit, r) => some (.num lit, r)
        | none => none
    | [] => none

/-- Parse a non-empty comma-separated list of JSON array elements up to and
including the closing bracket. -/
def parseElems : Nat → List Char → Option (List Json × List Char)
  | 0, _ => none
  | f + 1, cs =>
    match parseValue f cs with
    | none => none
    | some (v, rest) =>
      match skipJsonWs rest with
      | ',' :: r2 =>
        match parseElems f r2 with
        | some (es, r) => some (v :: es, r)
        | none => none
      | ']' :: r2 => some ([v], r2)
      | _ => none

/-- Parse a non-empty comma-separated list of JSON object members up to and
including the closing brace. -/
def parseMembers : Nat → List Char → Option (List (String × Json) × List Char)
  | 0, _ => none
  | f + 1, cs =>
    match skipJsonWs cs with
    | '"' :: rest =>
      match parseStringGo [] rest with
      | none => none
      | some (k, rest1) =>
        match skipJsonWs rest1 with
        | ':' :: r2 =>
          match parseValue f r2 with
          | none => none
          | some (v, rest2) =>
            match skipJsonWs rest2 with
            | ',' :: r3 =>
              match parseMembers f r3 with
              | some (ms, r) => some ((k, v) :: ms, r)
              | none => none
            | d :: r3 =>
              if d = rbrace then some ([(k, v)], r3) else none
            | [] => none
        | _ => none
    | _ => none

end

/-- `JSON.parse`: parse one JSON value, requiring only whitespace after it;
`none` models the thrown `SyntaxError`. -/
def jsonParse (s : String) : Option Json :=
  let cs := s.toList
  match parseValue (cs.length + 2) cs with
  | some (v, rest) => if skipJsonWs rest = [] then some v else none
  | none => none

/-! ## `removeJsonMarkdown` and `safeJsonParse` (src/utils/research.js) -/

/-- `removeJsonMarkdown`:
`text.replace(/^```json\s*/, "").replace(/\s*```$/, "").trim()`.
The first regex is anchored at the start: strip a leading "```json" plus the
following whitespace run.  The second matches a whitespace run immediately
followed by "```" at the very end of the string (leftmost match = maximal such
run).  Finally `trim`. -/
def removeJsonMarkdown (s : String) : String :=
  let cs := s.toList
  let cs1 :=
    match cs with
    | '`' :: '`' :: '`' :: 'j' :: 's' :: 'o' :: 'n' :: rest => rest.dropWhile jsWs
    | _ => cs
  let cs2 :=
    match cs1.reverse with
    | '`' :: '`' :: '`' :: revRest => (revRest.dropWhile jsWs).reverse
    | _ => cs1
  String.mk (jsTrim cs2)

/-- Index of the first occurrence of `c`, or `none` (JS `indexOf` = -1). -/
def firstIdx (c : Char) : List Char → Option Nat
  | [] => none
  | d :: rest =>
    if d = c then some 0
    else
      match firstIdx c rest with
      | some i => some (i + 1)
      | none => none

/-- Index of the last occurrence of `c`, or `none` (JS `lastIndexOf` = -1). -/
def lastIdx (c : Char) (cs : List Char) : Option Nat :=
  match firstIdx c cs.reverse with
  | some i => some (cs.length - 1 - i)
  | none => none

/-- The cleanup performed by `safeJsonParse` before its parse attempts:
strip markdown fences, drop text before the first `[` or `{`, and drop text
after the last `]` or `}`. -/
def cleanedText (text : String) : List Char :=
  let cs := (removeJsonMarkdown text).toList
  -- Math.min(indexOf('[') >= 0 ? .. : Infinity, indexOf('{') >= 0 ? .. : Infinity)
  let cs1 :=
    match firstIdx '[' cs, firstIdx lbrace cs with
    | some i, some j => cs.drop (min i j)
    | some i, none => cs.drop i
    | none, some j => cs.drop j
    | none, none => cs
  -- Math.max(lastIndexOf(']'), lastIndexOf('}')); -1 means no truncation
  match lastIdx ']' cs1, lastIdx rbrace cs1 with
  | some i, some j => cs1.take (max i j + 1)
  | some i, none => cs1.take (i + 1)
  | none, some j => cs1.take (j + 1)
  | none, none => cs1

/-- Second salvage stage: `cleanedText.replace(/'/g, '"')`. -/
def singleToDouble (cs : List Char) : List Char :=
  cs.map fun c => if c = squote then '"' else c

/-- One match step of `/([{,])\s*([a-zA-Z0-9_]+)\s*:/`: after a `{` or `,`,
try to match a whitespace run, a non-empty identifier, a whitespace run, and a
colon; returns the identifier and the rest after the colon. -/
def matchBareProp (cs : List Char) : Option (List Char × List Char) :=
  let afterWs := cs.dropWhile jsWs
  let identChar : Char → Bool := fun c =>
    jsDigit c || ('a' ≤ c && c ≤ 'z') || ('A' ≤ c && c ≤ 'Z') || c = '_'
  let ident := afterWs.takeWhile identChar
  let afterIdent := afterWs.dropWhile identChar
  if ident.length = 0 then none
  else
    match afterIdent.dropWhile jsWs with
    | ':' :: rest => some (ident, rest)
    | _ => none

/-- Third salvage stage: `cleanedText.replace(/([{,])\s*([a-zA-Z0-9_]+)\s*:/g,
'$1"$2":')` — quote bare object keys (the whitespace runs are not in a capture
group, so a match drops them). -/
def quoteBareProps : Nat → List Char → List Char
  | 0, cs => cs
  | fuel + 1, [] => []
  | fuel + 1, c :: rest =>
    if c = lbrace || c = ',' then
      match matchBareProp rest with
      | some (ident, rest1) =>
        c :: '"' :: (ident ++ '"' :: ':' :: quoteBareProps fuel rest1)
      | none => c :: quoteBareProps fuel rest
    else c :: quoteBareProps fuel rest

/-- `safeJsonParse(text, source, defaultValue)`: clean the text, then try
`JSON.parse` on the cleaned text, on the text with single quotes replaced by
double quotes, and on the text with bare property names quoted; if all three
attempts throw, return `defaultValue`.  Total — the embedded counterpart of
"never raises". -/
def safeJsonParse (text : String) (source : String) (defaultValue : Json) : Json :=
  let cleaned := cleanedText text
  match jsonParse (String.mk cleaned) with
  | some v => v
  | none =>
    match jsonParse (String.mk (singleToDouble cleaned)) with
    | some v => v
    | none =>
      match jsonParse (String.mk (quoteBareProps (cleaned.length + 1) cleaned)) with
      | some v => v
      | none => defaultValue

/-! ## `normalizeMarkdownNewlines` (src/utils/research.js)

Each global regex replacement is embedded as a left-to-right scanner with
explicit fuel (one unit per scanned position; the fuel supplied always
suffices because every step consumes input).  On a failed match attempt the
scanner advances one position, on a successful match it continues after the
matched text — the semantics of `String.prototype.replace` with a global
regex. -/

/-- Pass 1: `replace(/\n(#{1,6}\s)/g, '\n\n$1')` — ensure headers have proper
spacing.  After a newline, match one to six hashes followed by one whitespace
character (seven or more hashes never match: the backtracked shorter hash runs
are followed by another hash, not whitespace). -/
def passHeaders : Nat → List Char → List Char
  | 0, cs => cs
  | _ + 1, [] => []
  | f + 1, c :: rest =>
    if c = '\n' then
      let k := (rest.takeWhile (fun d => d = '#')).length
      let nextIsWs := jsWs ((rest.drop k).headD 'x')
      if 1 ≤ k && k ≤ 6 && nextIsWs then
        '\n' :: '\n' :: (rest.take (k + 1) ++ passHeaders f (rest.drop (k + 1)))
      else '\n' :: passHeaders f rest
    else c :: passHeaders f rest

/-- The character class `[^\n#\-\*\d>\|`\s]` of the paragraph-spacing regex,
negated: characters that do NOT start a new paragraph match. -/
def mdParaExcluded (c : Char) : Bool :=
  c = '\n' || c = '#' || c = '-' || c = '*' || jsDigit c || c = '>' ||
  c = '|' || c = '`' || jsWs c

/-- Pass 2: `replace(/\n([^\n#\-\*\d>\|`\s])/g, '\n\n$1')` — ensure paragraphs
have proper spacing. -/
def passParagraphs : Nat → List Char → List Char
  | 0, cs => cs
  | _ + 1, [] => []
  | f + 1, c :: rest =>
    if c = '\n' then
      match rest with
      | c2 :: rest2 =>
        if mdParaExcluded c2 then '\n' :: passParagraphs f rest
        else '\n' :: '\n' :: c2 :: passParagraphs f rest2
      | [] => '\n' :: passParagraphs f rest
    else c :: passParagraphs f rest

/-- Pass 3: `replace(/\n(\s*[-*+]\s)/g, '\n\n$1')` — fix list item spacing.
After a newline, a maximal whitespace run, then a bullet character, then one
whitespace character (shorter whitespace runs cannot match: they would put a
whitespace character where the bullet is required). -/
def passBullets : Nat → List Char → List Char
  | 0, cs => cs
  | _ + 1, [] => []
  | f + 1, c :: rest =>
    if c = '\n' then
      let w := (rest.takeWhile jsWs).length
      match rest.drop w with
      | b :: s :: _ =>
        if (b = '-' || b = '*' || b = '+') && jsWs s then
          '\n' :: '\n' :: (rest.take (w + 2) ++ passBullets f (rest.drop (w + 2)))
        else '\n' :: passBullets f rest
      | _ => '\n' :: passBullets f rest
    else c :: passBullets f rest

/-- Pass 4: `replace(/\n(\s*\d+\.\s)/g, '\n\n$1')` — fix numbered list item
spacing.  After a newline, a maximal whitespace run, a maximal non-empty digit
run, a dot, and one whitespace character. -/
def passNumbered : Nat → List Char → List Char
  | 0, cs => cs
  | _ + 1, [] => []
  | f + 1, c :: rest =>
    if c = '\n' then
      let w := (rest.takeWhile jsWs).length
      let afterW := rest.drop w
      let d := (afterW.takeWhile jsDigit).length
      match afterW.drop d with
      | '.' :: s :: _ =>
        if 1 ≤ d && jsWs s then
          '\n' :: '\n' :: (rest.take (w + d + 2) ++ passNumbered f (rest.drop (w + d + 2)))
        else '\n' :: passNumbered f rest
      | _ => '\n' :: passNumbered f rest
    else c :: passNumbered f rest

/-- Pass 5: `replace(/(\|[^\n]+\|)\n(?!\s*\|)/g, '$1\n\n')` — a blank line
after the last row of a table.  At a `|`, the group matches the rest of the
line when the line ends in `|` with at least one character in between and is
followed by a newline; the negative lookahead rejects the match when the first
non-whitespace character after that newline is another `|`. -/
def passTableBlank : Nat → List Char → List Char
  | 0, cs => cs
  | _ + 1, [] => []
  | f + 1, c :: rest =>
    if c = '|' then
      let seg := (c :: rest).takeWhile (fun d => d ≠ '\n')
      let after := (c :: rest).drop seg.length
      if 3 ≤ seg.length && seg.getLastD 'x' = '|' then
        match after with
        | '\n' :: tail =>
          if ((tail.dropWhile jsWs).headD 'x') = '|' then
            c :: passTableBlank f rest
          else
            seg ++ '\n' :: '\n' :: passTableBlank f tail
        | _ => c :: passTableBlank f rest
      else c :: passTableBlank f rest
    else c :: passTableBlank f rest

/-- Pass 6: `replace(/(\|[^\n]+\|)\n(?=\s*\|)/g, '$1\n')` — the replacement
text `'$1\n'` is exactly the matched text (the lookahead consumes nothing), so
this pass is the identity on the string. -/
def passTableRows (cs : List Char) : List Char := cs

/-- Pass 7: `replace(/\n{3,}/g, '\n\n')` — collapse runs of three or more
newlines to two. -/
def passSqueezeNewlines : Nat → List Char → List Char
  | 0, cs => cs
  | _ + 1, [] => []
  | f + 1, c :: rest =>
    if c = '\n' then
      let k := 1 + (rest.takeWhile (fun d => d = '\n')).length
      if 3 ≤ k then '\n' :: '\n' :: passSqueezeNewlines f (rest.drop (k - 1))
      else '\n' :: passSqueezeNewlines f rest
    else c :: passSqueezeNewlines f rest

/-- Pass 1 applied with fresh fuel. -/
def norm1 (cs : List Char) : List Char := passHeaders (cs.length + 1) cs

/-- Passes 1–2. -/
def norm2 (cs : List Char) : List Char :=
  passParagraphs ((norm1 cs).length + 1) (norm1 cs)

/-- Passes 1–3. -/
def norm3 (cs : List Char) : List Char :=
  passBullets ((norm2 cs).length + 1) (norm2 cs)

/-- Passes 1–4. -/
def norm4 (cs : List Char) : List Char :=
  passNumbered ((norm3 cs).length + 1) (norm3 cs)

/-- Passes 1–5. -/
def norm5 (cs : List Char) : List Char :=
  passTableBlank ((norm4 cs).length + 1) (norm4 cs)

/-- Passes 1–6. -/
def norm6 (cs : List Char) : List Char := passTableRows (norm5 cs)

/-- The seven replacement passes of `normalizeMarkdownNewlines` in source
order. -/
def normPasses (cs : List Char) : List Char :=
  passSqueezeNewlines ((norm6 cs).length + 1) (norm6 cs)

/-- `normalizeMarkdownNewlines`: `if (!text) return text;` then the seven
replacement passes in order.  The only falsy `String` is `""`. -/
def normalizeMarkdownNewlines (s : String) : String :=
  if s = "" then s else String.mk (normPasses s.toList)

/-! ## `withRetry` (src/utils/research.js)

Errors are modelled by `ErrInfo`: `message` is `error.message`, `status` the
optional numeric `error.status` (absent = `undefined`), and
`retryDelaySeconds` the optional vendor retry-after duration obtained from
`error.errorDetails` RetryInfo (already parsed to seconds; `none` covers both
a missing RetryInfo and an unparseable duration). -/

structure ErrInfo where
  message : String := ""
  status : Option Nat := none
  retryDelaySeconds : Option Nat := none
  deriving Repr, DecidableEq

/-- The options object of `withRetry`, with the source defaults.  The JS
`context` object has a single relevant field `model`; `contextModel = none`
models a context without a `model` property (the default `{}`). -/
structure RetryOptions where
  maxRetries : Nat := 3
  initialDelay : Nat := 1000
  maxDelay : Nat := 30000
  factor : Nat := 2
  retryableStatusCodes : List Nat := [429, 500, 503]
  fallbackModel : String := "gemini-1.5-flash"
  contextModel : Option String := none
  deriving Repr

/-- `error.status && retryableStatusCodes.includes(error.status)`: an absent
status is falsy, and so is a numeric status of `0`. -/
def isRateLimitError (opts : RetryOptions) (e : ErrInfo) : Bool :=
  match e.status with
  | some s => decide (s ≠ 0) && opts.retryableStatusCodes.contains s
  | none => false

/-- The retry loop of `withRetry`.  The operation `fn` is an oracle indexed by
invocation number and the context `model` it is handed (the JS closure reads
the mutated `context` object).  Returns the result together with the list of
context models at each invocation (ghost trace used only by theorems).  The
fuel-zero branch corresponds to the trailing `throw lastError` after the
`for` loop, which is unreachable for the fuel supplied by `withRetryTr`. -/
def withRetryGo {α : Type} (fn : Nat → Option String → Except ErrInfo α)
    (opts : RetryOptions) (lastErr : ErrInfo) :
    Nat → Nat → Option String → Nat → Except ErrInfo α × List (Option String)
  | 0, _, _, _ => (.error lastErr, [])
  | fuel + 1, attempt, ctxModel, delay =>
    -- if this is not the first attempt and context.model and fallbackModel
    -- are truthy, permanently switch the context to the fallback model
    let ctx' :=
      if 0 < attempt && truthyOptStr ctxModel && opts.fallbackModel ≠ "" then
        some opts.fallbackModel
      else ctxModel
    match fn attempt ctx' with
    | .ok v => (.ok v, [ctx'])
    | .error e =>
      if opts.maxRetries ≤ attempt || !isRateLimitError opts e then
        (.error e, [ctx'])
      else
        let retryDelay :=
          match e.retryDelaySeconds with
          | some secs => secs * 1000
          | none => delay
        let retryDelay := min retryDelay opts.maxDelay
        let delay' := min (delay * opts.factor) opts.maxDelay
        let rest := withRetryGo fn opts e fuel (attempt + 1) ctx' delay'
        (rest.1, ctx' :: rest.2)

/-- `withRetry` with its ghost invocation trace. -/
def withRetryTr {α : Type} (fn : Nat → Option String → Except ErrInfo α)
    (opts : RetryOptions) : Except ErrInfo α × List (Option String) :=
  withRetryGo fn opts {} (opts.maxRetries + 1) 0 opts.contextModel opts.initialDelay

/-- `withRetry(fn, options)`: the returned value (or the propagated last
error). -/
def withRetry {α : Type} (fn : Nat → Option String → Except ErrInfo α)
    (opts : RetryOptions) : Except ErrInfo α :=
  (withRetryTr fn opts).1

/-! ## Search gateway (src/utils/web-search.js)

This embeds the module at `src/src/utils/web-search.js`, the one resolved by
`require('./web-search')` in `src/utils/research.js` (and the one the claims
cite).  One `tavily` call is resolved by a `SearchCallEnv`:
`shuffledFirstKey` is the first element of `shuffle(TAVILY_API_KEY.split(","))`
(the environment resolves the shuffle), and `fetch` the outcome of the POST to
the Tavily endpoint. -/

structure SearchResult where
  title : String
  content : String
  url : String
  deriving Repr, DecidableEq

/-- An item of the `results` field of a Tavily response, before filtering;
`none` fields model absent / undefined properties. -/
structure RawSearchItem where
  title : Option String := none
  content : Option String := none
  url : Option String := none
  deriving Repr

/-- Outcome of the `fetch` inside `tavily`. -/
structure FetchResp where
  ok : Bool
  results : Option (List RawSearchItem) := none
  deriving Repr

structure SearchCallEnv where
  shuffledFirstKey : String := ""
  fetch : Except ErrInfo FetchResp := .error {}
  deriving Repr

/-- `tavily(query, options, maxResults)`: no API key, a non-ok response, or a
thrown error all yield `[]`; otherwise filter out items missing content or a
URL and normalize the fields.  Never throws. -/
def tavily (c : SearchCallEnv) : List SearchResult :=
  if c.shuffledFirstKey = "" then []
  else
    match c.fetch with
    | .error _ => []
    | .ok resp =>
      if !resp.ok then []
      else
        ((resp.results.getD []).filter
            (fun i => truthyOptStr i.content && truthyOptStr i.url)).map
          (fun r => ⟨r.title.getD "", r.content.getD "", r.url.getD ""⟩)

/-- `mockSearch(query)`: the two deterministic mock results. -/
def mockSearch (query : String) : List SearchResult :=
  [⟨"Mock Result 1 for " ++ query,
    "This is a mock search result for " ++ query ++
      ". It contains some sample content that would be returned by a real search API.",
    "https://example.com/mock-result-1"⟩,
   ⟨"Mock Result 2 for " ++ query,
    "This is another mock search result for " ++ query ++
      ". It contains different sample content to simulate multiple search results.",
    "https://example.com/mock-result-2"⟩]

/-- The relevant application settings (src/settings/app.js). -/
structure AppSettings where
  enableSearch : Bool := true
  useMockWhenKeysAreMissing : Bool := true
  deriving Repr

/-- The second positional argument of `performSearch`.  `runSearchTasks`
passes an options object here; the `switch` inside `performSearch` compares
the argument against the strings "tavily" and "mock", which an object never
equals. -/
inductive SPArg where
  | str (s : String)
  | obj (searchProvider : String) (maxResults : Nat)
  deriving Repr

/-- `performSearch(query, searchProvider, maxResults)`.  `useMockMode` is the
`USE_MOCK_MODE` environment flag; it is a parameter of the embedding only to
express independence — the body of this function never reads it, matching the
source.  Total: `tavily` absorbs its own errors, so the outer catch (and its
rethrow when the mock policy is off) is unreachable. -/
def performSearch (settings : AppSettings) (useMockMode : Bool)
    (c : SearchCallEnv) (query : String) (searchProvider : SPArg)
    (maxResults : Nat) : List SearchResult :=
  if !settings.enableSearch then mockSearch query
  else
    match searchProvider with
    | .str s =>
      if s = "tavily" then
        let tavilyResults := tavily c
        if 0 < tavilyResults.length || !settings.useMockWhenKeysAreMissing then
          tavilyResults
        else mockSearch query
      else if s = "mock" then mockSearch query
      else mockSearch query
    | .obj _ _ => mockSearch query

/-! ## Mock LLM and `createProvider` (src/utils/mock-llm.js, src/utils/research.js) -/

/-- `a.startsWith`-style prefix test on character lists. -/
def listStartsWith : List Char → List Char → Bool
  | [], _ => true
  | _ :: _, [] => false
  | n :: ns, h :: hs => n = h && listStartsWith ns hs

/-- Substring occurrence test on character lists. -/
def listContainsSub (needle : List Char) : List Char → Bool
  | [] => listStartsWith needle []
  | h :: hs => listStartsWith needle (h :: hs) || listContainsSub needle hs

/-- JS `hay.includes(needle)`. -/
def strIncludes (hay needle : String) : Bool :=
  listContainsSub needle.toList hay.toList

/-- `mockResponses.queryGeneration.default` — the `JSON.stringify` output. -/
def mockQueryGenDefault : String :=
  "\x7b\"queries\":[\x7b\"query\":\"What is artificial intelligence?\",\"researchGoal\":\"Understand the basic definition and concepts of AI\"\x7d,\x7b\"query\":\"History of artificial intelligence development\",\"researchGoal\":\"Learn about the key milestones in AI research\"\x7d,\x7b\"query\":\"Current applications of AI in everyday life\",\"researchGoal\":\"Discover how AI is being used in modern society\"\x7d]\x7d"

/-- `mockResponses.queryGeneration.technical`. -/
def mockQueryGenTechnical : String :=
  "\x7b\"queries\":[\x7b\"query\":\"Neural network architecture fundamentals\",\"researchGoal\":\"Understand the technical structure of neural networks\"\x7d,\x7b\"query\":\"Machine learning algorithms comparison\",\"researchGoal\":\"Analyze different ML algorithms and their applications\"\x7d,\x7b\"query\":\"Recent advancements in deep learning research\",\"researchGoal\":\"Identify cutting-edge developments in deep learning\"\x7d]\x7d"

/-- `mockResponses.searchProcessing.default`. -/
def mockSearchProcessingDefault : String :=
  "\x7b\"relevantInformation\":[\"Artificial intelligence (AI) is intelligence demonstrated by machines.\",\"Machine learning is a subset of AI focused on data and algorithms.\",\"Deep learning uses neural networks with many layers.\"],\"irrelevantInformation\":[\"The term \x27artificial intelligence\x27 was coined in 1956.\"],\"learnings\":[\"AI systems can perform tasks that typically require human intelligence.\",\"Machine learning allows systems to learn from data without explicit programming.\",\"Neural networks are computing systems inspired by the human brain.\"]\x7d"

/-- `mockResponses.reportWriting.default`. -/
def mockReportDefault : String :=
  "# Artificial Intelligence: An Overview\n\n## Introduction\nArtificial intelligence (AI) refers to the simulation of human intelligence in machines that are programmed to think and learn like humans. The term may also be applied to any machine that exhibits traits associated with a human mind such as learning and problem-solving.\n\n## Key Concepts\n- **Machine Learning**: A subset of AI that enables systems to learn from data\n- **Neural Networks**: Computing systems inspired by biological neural networks\n- **Deep Learning**: Advanced neural networks with multiple layers\n- **Natural Language Processing**: Enables computers to understand human language\n\n## Applications\nAI has numerous applications across various industries:\n- Healthcare: Diagnosis, drug discovery, personalized medicine\n- Finance: Fraud detection, algorithmic trading\n- Transportation: Autonomous vehicles, traffic management\n- Entertainment: Recommendation systems, content creation\n\n## Challenges and Ethical Considerations\nDespite its potential, AI faces several challenges:\n- Data privacy concerns\n- Algorithmic bias\n- Job displacement\n- Security vulnerabilities\n\n## Conclusion\nArtificial intelligence continues to evolve rapidly, transforming industries and society. Understanding its capabilities, limitations, and ethical implications is crucial for responsible development and deployment."

/-- `mockResponses.reportWriting.technical`. -/
def mockReportTechnical : String :=
  "# Technical Analysis of Neural Network Architectures\n\n## Introduction\nNeural networks form the backbone of modern deep learning systems, with various architectures optimized for different tasks. This report examines the fundamental structures, training methodologies, and performance characteristics of major neural network architectures.\n\n## Convolutional Neural Networks (CNNs)\nCNNs excel at image processing tasks through:\n- Convolutional layers for feature extraction\n- Pooling layers for dimensionality reduction\n- Fully connected layers for classification\n\nPerformance metrics show 95-98% accuracy on standard image classification benchmarks.\n\n## Recurrent Neural Networks (RNNs)\nRNNs process sequential data with:\n- Memory cells that maintain state information\n- Feedback connections for temporal processing\n- Variants like LSTM and GRU to address vanishing gradient problems\n\n## Transformer Architectures\nTransformers have revolutionized NLP through:\n- Self-attention mechanisms\n- Parallel processing capabilities\n- Positional encoding for sequence awareness\n\n## Performance Comparison\n| Architecture | Training Efficiency | Inference Speed | Parameter Count |\n|--------------|---------------------|-----------------|-----------------|\n| CNN          | Medium              | Fast            | 5-25M           |\n| RNN/LSTM     | Slow                | Medium          | 10-50M          |\n| Transformer  | Very Slow           | Medium          | 100M-175B       |\n\n## Technical Challenges\n- Computational complexity scales with model size\n- Training stability issues in deep architectures\n- Hyperparameter optimization complexity\n\n## Conclusion\nEach neural network architecture offers distinct advantages for specific problem domains. Selection should be based on data characteristics, computational constraints, and performance requirements."

/-- The fallthrough mock response: `JSON.stringify([{query: "Default mock
query", researchGoal: "Default research goal"}])`. -/
def mockDefaultArray : String :=
  "[\x7b\"query\":\"Default mock query\",\"researchGoal\":\"Default research goal\"\x7d]"

/-- The prompt-keyed response selection shared verbatim by
`createMockGoogleModel` and `createMockOpenRouterWrapper`. -/
def mockRespond (prompt : String) : String :=
  if strIncludes prompt "generate search queries" then
    if strIncludes prompt "technical" || strIncludes prompt "scientific" then
      mockQueryGenTechnical
    else mockQueryGenDefault
  else if strIncludes prompt "process search results" ||
      strIncludes prompt "analyze the following search results" then
    mockSearchProcessingDefault
  else if strIncludes prompt "write a report" ||
      strIncludes prompt "create a comprehensive report" then
    if strIncludes prompt "technical" || strIncludes prompt "scientific" then
      mockReportTechnical
    else mockReportDefault
  else mockDefaultArray

/-- One part of a `generateContent` request. -/
structure GenPart where
  text : String
  deriving Repr

/-- One content entry of a `generateContent` request. -/
structure GenContent where
  role : String
  parts : List GenPart
  deriving Repr

/-- A `generateContent` request; the `generationConfig` numeric options do
not affect any claim and are absorbed by the oracle for the live providers. -/
structure GenRequest where
  contents : List GenContent
  deriving Repr

/-- `params.contents?.[0]?.parts?.[0]?.text || ''`. -/
def firstPartText (req : GenRequest) : String :=
  match req.contents with
  | c :: _ =>
    match c.parts with
    | p :: _ => p.text
    | [] => ""
  | [] => ""

/-- A constructed provider value.  The live Google / OpenRouter variants
record the constructor arguments that determine their behaviour; their network
responses are resolved by an oracle in `generateContent`. -/
inductive Provider where
  | mockGoogle (model : String)
  | mockOpenRouter (model : String)
  | google (apiKey : Option String) (model : String)
  | openrouter (apiKey : Option String) (model : String)
  deriving Repr, DecidableEq

/-- The options object handed to `createProvider` /
`createMockProvider`; `none` models an absent key. -/
structure ProviderOpts where
  mockType : Option String := none
  model : Option String := none
  deriving Repr

/-- `createMockGoogleModel({model, ...options})`:
`options.model || 'gemini-1.5-pro'` after the spread merge. -/
def createMockGoogleModel (m : Option String) : Provider :=
  .mockGoogle (jsOrElse m "gemini-1.5-pro")

/-- `createMockOpenRouterWrapper({model, ...options})`. -/
def createMockOpenRouterWrapper (m : Option String) : Provider :=
  .mockOpenRouter (jsOrElse m "anthropic/claude-3-opus:beta")

/-- `createMockProvider(provider, model, options)`: dispatch on the provider
string, defaulting to the Google-shaped mock. -/
def createMockProvider (provider : String) (model : Option String)
    (opts : ProviderOpts) : Provider :=
  let merged := match opts.model with
    | some v => some v
    | none => model
  if provider = "google" then createMockGoogleModel merged
  else if provider = "openrouter" then createMockOpenRouterWrapper merged
  else createMockGoogleModel merged

/-- Environment configuration read by `createProvider`. -/
structure ProviderEnv where
  useMockMode : Bool := false
  defaultLlmProvider : Option String := none
  googleApiKey : Option String := none
  openRouterApiKey : Option String := none
  defaultOpenRouterModel : Option String := none
  deriving Repr

/-- JS `a || b` on two optional strings. -/
def jsOrOpt (a b : Option String) : Option String :=
  if truthyOptStr a then a else b

/-- `createProvider(provider, model, options, apiKey)`: if the global mock
mode flag is set and the caller did not ask for the mock, transparently
replace the requested provider by the mock; then dispatch, defaulting to
Google for unsupported providers. -/
def createProvider (env : ProviderEnv) (provider : String)
    (model : Option String) (opts : ProviderOpts) (apiKey : Option String) :
    Provider :=
  let provider := if env.useMockMode && provider ≠ "mock" then "mock" else provider
  let provider := if provider = "" then jsOrElse env.defaultLlmProvider "google" else provider
  if provider = "mock" then
    createMockProvider (jsOrElse opts.mockType "google") model opts
  else if provider = "google" then
    .google (jsOrOpt apiKey env.googleApiKey) (jsOrElse model "gemini-1.5-pro")
  else if provider = "openrouter" then
    .openrouter (jsOrOpt apiKey env.openRouterApiKey)
      (jsOrElse model (jsOrElse env.defaultOpenRouterModel "anthropic/claude-3-opus:beta"))
  else
    .google (jsOrOpt apiKey env.googleApiKey) (jsOrElse model "gemini-1.5-pro")

/-- `provider.generateContent(params)`, returning `response.text()`.  The two
mock variants respond deterministically by the shared prompt-keyed table; the
live variants are resolved by the oracle (which may fail). -/
def generateContent (oracle : Provider → GenRequest → Except ErrInfo String)
    (p : Provider) (req : GenRequest) : Except ErrInfo String :=
  match p with
  | .mockGoogle _ => .ok (mockRespond (firstPartText req))
  | .mockOpenRouter _ => .ok (mockRespond (firstPartText req))
  | .google _ _ => oracle p req
  | .openrouter _ _ => oracle p req

/-! ## JS value helpers for the research layer -/

/-- A numeric literal denoting zero (`0`, `-0`, `0.00`, `0e5`, ...): every
mantissa digit is `0`. -/
def numIsZero (lit : String) : Bool :=
  (lit.toList.takeWhile (fun c => c ≠ 'e' && c ≠ 'E')).all
    (fun c => c = '0' || c = '.' || c = '-')

/-- JS truthiness of a JSON value: `null`, `false`, `±0` and `""` are falsy;
arrays and objects (including empty ones) are truthy. -/
def Json.truthy : Json → Bool
  | .null => false
  | .bool b => b
  | .num lit => !numIsZero lit
  | .str s => s ≠ ""
  | .arr _ => true
  | .obj _ => true

/-- JS property access `j[k]`: `none` models `undefined`.  For objects with
duplicate keys `JSON.parse` keeps the last binding. -/
def Json.get? : Json → String → Option Json
  | .obj fs, k => (fs.filterMap fun p => if p.1 = k then some p.2 else none).getLast?
  | _, _ => none

/-- Truthiness of `j.k` (an absent property is `undefined`, hence falsy). -/
def jsTruthyProp (j : Json) (k : String) : Bool :=
  match j.get? k with
  | some v => v.truthy
  | none => false

/-- JS `.length` of a parsed JSON value: a number for arrays and strings,
`undefined` (and in particular not `=== 0`) otherwise. -/
def jsLength : Json → Option Nat
  | .arr xs => some xs.length
  | .str s => some s.length
  | _ => none

mutual

/-- JS `String(value)` coercion of a JSON value.  Numbers stringify as their
source literal (an approximation of double formatting that agrees on the
integer literals that can occur here). -/
def jsToString : Json → String
  | .null => "null"
  | .bool b => cond b "true" "false"
  | .num lit => lit
  | .str s => s
  | .arr xs => jsArrToString xs
  | .obj _ => "[object Object]"

/-- `Array.prototype.toString`: elements joined by commas. -/
def jsArrToString : List Json → String
  | [] => ""
  | [x] => jsElemToString x
  | x :: y :: xs => jsElemToString x ++ "," ++ jsArrToString (y :: xs)

/-- Array elements stringify like `String` except that `null` joins as the
empty string. -/
def jsElemToString : Json → String
  | .null => ""
  | .bool b => cond b "true" "false"
  | .num lit => lit
  | .str s => s
  | .arr xs => jsArrToString xs
  | .obj _ => "[object Object]"

end

/-- Template-literal coercion of a possibly-`undefined` value. -/
def jsTemplate : Option Json → String
  | none => "undefined"
  | some j => jsToString j

/-- JS `x || d` for an optional number (`0` is falsy). -/
def jsOrNat (x : Option Nat) (d : Nat) : Nat :=
  match x with
  | some n => if n = 0 then d else n
  | none => d

/-! ## `getModel` and prompt helpers (src/utils/research.js) -/

/-- The environment variables read by `getModel` / `createProvider`. -/
structure LlmEnv where
  defaultLlmProvider : Option String := none
  defaultThinkingModel : Option String := none
  defaultNetworkingModel : Option String := none
  defaultOpenRouterModel : Option String := none
  deriving Repr

/-- `getModel(provider, requestedModel)` returning
`(thinkingModel, networkingModel)`.  A requested model overrides both; the
Google models come from `settings.llm.googleSettings`. -/
def getModel (env : LlmEnv) (provider : String) (requestedModel : Option String) :
    String × String :=
  let provider := if provider = "" then jsOrElse env.defaultLlmProvider "google" else provider
  let thinking := jsOrElse env.defaultThinkingModel "gemini-1.5-flash"
  let networking := jsOrElse env.defaultNetworkingModel "gemini-1.5-pro"
  if truthyOptStr requestedModel then
    let m := requestedModel.getD ""
    (m, m)
  else if provider = "google" then
    ("gemini-2.0-flash-thinking-exp-01-21", "gemini-2.0-flash-001")
  else if provider = "openrouter" then
    (jsOrElse env.defaultOpenRouterModel "anthropic/claude-3-opus:beta",
     jsOrElse env.defaultOpenRouterModel "anthropic/claude-3-opus:beta")
  else (thinking, networking)

/-- `getResponseLanguagePrompt(language)`. -/
def getResponseLanguagePrompt (language : String) : String :=
  if language = "en-US" then "Please respond in English."
  else "Please respond in " ++ language ++ "."

/-- `processResultPrompt(query, researchGoal, results)`: the synthesis prompt.
The four segments are joined by blank lines; with no results the third
segment is the empty string (and still joined, as in the source). -/
def processResultPrompt (query researchGoal : String)
    (results : List SearchResult) : String :=
  let contents := results.map fun r =>
    "<content url=\"" ++ r.url ++ "\">\n" ++ r.content ++ "\n</content>"
  String.intercalate "\n\n"
    ["Given the following contents from a SERP search for the query:\n<query>" ++
       query ++ "</query>.",
     "You need to organize the searched information according to the following requirements:\n<researchGoal>\n" ++
       researchGoal ++ "\n</researchGoal>",
     if 0 < contents.length then
       "<contents>" ++ String.intercalate "\n" contents ++ "</contents>"
     else "",
     "You need to think like a human researcher. Generate a list of learnings from the contents. Make sure each learning is unique and not similar to each other. The learnings should be to the point, as detailed and information dense as possible. Make sure to include any entities like people, places, companies, products, things, etc in the learnings, as well as any specific entities, metrics, numbers, and dates when available. The learnings will be used to research the topic further."]

/-! ## `generateSearchQueries` (src/utils/research.js) -/

/-- Result record of `generateSearchQueries`. -/
structure GenQueriesResult where
  queries : Json
  error : Option String := none
  deriving Repr

/-- The three deterministic default queries derived from the topic. -/
def defaultQueriesJson (topic : String) : Json :=
  .arr
    [.obj [("query", .str ("Latest research on " ++ topic)),
           ("researchGoal", .str ("Find the most recent studies and papers on " ++ topic))],
     .obj [("query", .str ("History of " ++ topic)),
           ("researchGoal", .str ("Understand the historical context and evolution of " ++ topic))],
     .obj [("query", .str ("Future trends in " ++ topic)),
           ("researchGoal", .str ("Identify emerging trends and future directions for " ++ topic))]]

/-- The `withRetry` call inside `generateSearchQueries`: each attempt maps the
oracle-resolved model response through `safeJsonParse` with the default
queries as the parse-failure default. -/
def genQueriesRetryResult (llm : LlmEnv) (genQ : Nat → Except ErrInfo String)
    (topic provider : String) (requestedModel : Option String) :
    Except ErrInfo Json :=
  withRetry
    (fun attempt _ctx =>
      (genQ attempt).map fun content =>
        safeJsonParse content "generateSearchQueries" (defaultQueriesJson topic))
    { maxRetries := 3, fallbackModel := "gemini-1.5-flash",
      contextModel := some (getModel llm provider requestedModel).1 }

/-- `generateSearchQueries(topic, ...)`: a `withRetry`-wrapped model call
whose response is parsed by `safeJsonParse` with the default queries as the
parse-failure default; if the retries are exhausted, the catch block returns
the same three defaults together with the error message.  The model response
at each attempt is resolved by the oracle `genQ`; prompt construction only
feeds the oracle and is absorbed by it.  Total — never throws. -/
def generateSearchQueries (llm : LlmEnv) (genQ : Nat → Except ErrInfo String)
    (topic language provider : String) (requestedModel : Option String) :
    GenQueriesResult :=
  match genQueriesRetryResult llm genQ topic provider requestedModel with
  | .ok v => { queries := v }
  | .error e => { queries := defaultQueriesJson topic, error := some e.message }

/-! ## `runSearchTasks` (src/utils/research.js) -/

/-- The per-query result object pushed by `runSearchTasks`. -/
structure TaskResult where
  query : Json
  researchGoal : Json
  sources : List SearchResult
  learnings : List String
  deriving Repr

/-- The JS value of the property access `searchResults.results`. -/
inductive JsProp where
  | undef
  | arrVal (xs : List SearchResult)
  deriving Repr

/-- `searchResults.results` where `searchResults` is the Array returned by
`performSearch`: a JS Array has no `results` property, so the access yields
`undefined`. -/
def resultsProp (searchResults : List SearchResult) : JsProp :=
  JsProp.undef

/-- The source chain
`if (Array.isArray(r)) sources = r; else if (typeof r === 'object') sources = []; else sources = []`
applied to the value of `searchResults.results`. -/
def sourcesFromResultsProp : JsProp → List SearchResult
  | .arrVal xs => xs
  | .undef => []

/-- Strip `^[0-9]+\.\s*` from a line. -/
def stripLeadingEnum (l : List Char) : List Char :=
  let d := (l.takeWhile jsDigit).length
  if 1 ≤ d then
    match l.drop d with
    | '.' :: r => r.dropWhile jsWs
    | _ => l
  else l

/-- `content.split("\n").filter(line => line.trim().length > 0)
.map(line => line.replace(/^[0-9]+\.\s*/, "").trim())`. -/
def parseLearnings (content : String) : List String :=
  ((jsSplit '\n' content.toList).filter fun l => 0 < (jsTrim l).length).map
    fun l => String.mk (jsTrim (stripLeadingEnum l))

/-- The fallback content substituted when the synthesis retries are
exhausted. -/
def synthFallbackText (queryStr : String) : String :=
  "Unable to process search results due to API limits. Basic information about " ++
    queryStr ++ " would typically include key facts and data points relevant to the topic."

/-- One task of `runSearchTasks` for one element of the queries array.
Returns the result object pushed to `results` (`none` for a skipped invalid
query) together with the synthesis prompt text handed to the model (ghost,
used only by theorems).  The per-task `performSearch` call hands an options
object `{searchProvider, maxResults}` to a positional string parameter and its
own errors are caught with `sources` left `[]`. -/
def runSearchTask (settings : AppSettings) (useMockMode : Bool)
    (c : SearchCallEnv) (synth : Nat → Except ErrInfo String) (elem : Json)
    (language : String) (enableSearch : Bool) (searchProvider : String)
    (searchMaxResult : Nat) (networkingModel : String) :
    Option TaskResult × Option String :=
  if !elem.truthy || !jsTruthyProp elem "query" then (none, none)
  else
    let queryVal := (elem.get? "query").getD .null
    let queryStr := jsToString queryVal
    let sources :=
      if enableSearch && searchProvider ≠ "model" then
        sourcesFromResultsProp (resultsProp
          (performSearch settings useMockMode c queryStr
            (.obj searchProvider searchMaxResult) 5))
      else []
    let prompt :=
      processResultPrompt queryStr (jsTemplate (elem.get? "researchGoal")) sources ++
        "\n\n" ++ getResponseLanguagePrompt language
    let content :=
      match withRetry (fun attempt _ctx => synth attempt)
          { maxRetries := 2, fallbackModel := "gemini-1.5-flash",
            contextModel := some networkingModel } with
      | .ok text => text
      | .error _ => synthFallbackText queryStr
    let researchGoal :=
      match elem.get? "researchGoal" with
      | some g => if g.truthy then g else .str ""
      | none => .str ""
    (some ⟨queryVal, researchGoal, sources, parseLearnings content⟩, some prompt)

/-- Result record of `runSearchTasks`. -/
structure RunSearchOut where
  results : List TaskResult
  deriving Repr

/-- The task loop of `runSearchTasks`: one task per queries-array element,
non-null results pushed in order; `i` is the element index selecting the
per-task search environment and synthesis oracle. -/
def runTasksGo (settings : AppSettings) (useMockMode : Bool)
    (searchEnvs : Nat → SearchCallEnv) (synth : Nat → Nat → Except ErrInfo String)
    (language : String) (enableSearch : Bool) (searchProvider : String)
    (searchMaxResult : Nat) (networkingModel : String) :
    Nat → List Json → List TaskResult
  | _, [] => []
  | i, e :: es =>
    match (runSearchTask settings useMockMode (searchEnvs i) (synth i) e language
        enableSearch searchProvider searchMaxResult networkingModel).1 with
    | some r => r :: runTasksGo settings useMockMode searchEnvs synth language
        enableSearch searchProvider searchMaxResult networkingModel (i + 1) es
    | none => runTasksGo settings useMockMode searchEnvs synth language
        enableSearch searchProvider searchMaxResult networkingModel (i + 1) es

/-- `runSearchTasks(queries, ...)`: a falsy / non-array / empty queries value
yields `{results: []}`; otherwise one task per element, results pushed in
index order (the sequential order of the `pLimit(1)` scheduler that the
orchestrator always selects via `parallelSearch = false`; under parallel mode
JS pushes in completion order, which only permutes this list).  Total — task
failures are settled, never propagated. -/
def runSearchTasks (llm : LlmEnv) (settings : AppSettings) (useMockMode : Bool)
    (searchEnvs : Nat → SearchCallEnv) (synth : Nat → Nat → Except ErrInfo String)
    (queries : Json) (language provider : String) (requestedModel : Option String)
    (enableSearch : Bool) (searchProvider : String) (parallelSearch : Bool)
    (searchMaxResult : Nat) : RunSearchOut :=
  let networkingModel := (getModel llm provider requestedModel).2
  match queries with
  | .arr elems =>
    if elems.length = 0 then ⟨[]⟩
    else
      ⟨runTasksGo settings useMockMode searchEnvs synth language enableSearch
        searchProvider searchMaxResult networkingModel 0 elems⟩
  | _ => ⟨[]⟩

/-! ## `reviewSearchResults` and `writeFinalReport` (src/utils/research.js) -/

/-- Result record of `reviewSearchResults`. -/
structure ReviewResult where
  queries : Json
  error : Option String := none
  deriving Repr

/-- `reviewSearchResults(topic, learnings, ...)`: parse the (oracle-resolved)
model response with default `[]`; exhausted retries are caught and yield
`{queries: [], error}`.  Total — never throws. -/
def reviewSearchResults (llm : LlmEnv) (reviewO : Nat → Except ErrInfo String)
    (topic : String) (learnings : List String) (language provider : String)
    (requestedModel : Option String) : ReviewResult :=
  let tm := (getModel llm provider requestedModel).1
  match withRetry
      (fun attempt _ctx =>
        (reviewO attempt).map fun content =>
          safeJsonParse content "reviewSearchResults" (Json.arr []))
      { maxRetries := 3, fallbackModel := "gemini-1.5-flash",
        contextModel := some tm } with
  | .ok v => { queries := v }
  | .error e => { queries := .arr [], error := some e.message }

/-- Result record of `writeFinalReport`. -/
structure ReportResult where
  report : String
  error : Option String := none
  deriving Repr

/-- The degraded report assembled by `writeFinalReport` when its retries are
exhausted: an error notice followed by the enumerated learnings. -/
def finalReportErrorText (topic msg : String) (learnings : List String) : String :=
  "# Research Report on " ++ topic ++ "\n\n" ++
    "## Error Generating Full Report\n\n" ++
    "We encountered an error while generating the full report: " ++ msg ++ "\n\n" ++
    "## Key Learnings\n\n" ++
    String.intercalate "\n\n"
      (learnings.mapIdx fun i l => Nat.repr (i + 1) ++ ". " ++ l)

/-- The `withRetry` call inside `writeFinalReport`. -/
def reportRetryResult (llm : LlmEnv) (reportO : Nat → Except ErrInfo String)
    (provider : String) (requestedModel : Option String) :
    Except ErrInfo String :=
  withRetry (fun attempt _ctx => reportO attempt)
    { maxRetries := 3, fallbackModel := "gemini-1.5-flash",
      contextModel := some (getModel llm provider requestedModel).2 }

/-- `writeFinalReport(topic, learnings, ...)`: normalize the (oracle-resolved)
model response; exhausted retries are caught and yield the normalized degraded
error report.  Total — never throws. -/
def writeFinalReport (llm : LlmEnv) (reportO : Nat → Except ErrInfo String)
    (topic : String) (learnings : List String) (language provider : String)
    (requestedModel : Option String) : ReportResult :=
  match reportRetryResult llm reportO provider requestedModel with
  | .ok raw => { report := normalizeMarkdownNewlines raw }
  | .error e =>
    { report := normalizeMarkdownNewlines (finalReportErrorText topic e.message learnings),
      error := some e.message }

/-! ## `performDirectResearch` (src/utils/research.js)

The environment record resolves every external interaction of one research
session.  LLM oracles are indexed by loop round, query index within the round,
and retry attempt; the prompt text fed to each call is a function of data the
oracle already determines and is absorbed by it. -/

structure ResearchEnv where
  settings : AppSettings := {}
  useMockMode : Bool := false
  llm : LlmEnv := {}
  genQ : Nat → Except ErrInfo String
  synth : Nat → Nat → Nat → Except ErrInfo String
  review : Nat → Nat → Except ErrInfo String
  reportLLM : Nat → Except ErrInfo String
  search : Nat → Nat → SearchCallEnv

/-- The options object of `performDirectResearch`; `promptType`,
`reportStyle`, `detailLevel` and `requirement` only shape prompt text and are
absorbed by the oracles. -/
structure ResearchOptions where
  maxResults : Option Nat := none

/-- `allLearnings` accumulation: for each result object, append its
`learnings` array (an Array value is always truthy, so the guard in the
source always takes this branch for the embedded, typed results). -/
def extractLearnings (results : List TaskResult) : List String :=
  results.foldl (fun acc t => acc ++ t.learnings) []

/-- One `runSearchTasks` round as invoked by `performDirectResearch`
(`enableSearch = true`, `parallelSearch = false`). -/
def runRound (env : ResearchEnv) (round : Nat) (queries : Json)
    (language provider : String) (requestedModel : Option String)
    (searchProvider : String) (maxResults : Nat) : List TaskResult :=
  (runSearchTasks env.llm env.settings env.useMockMode (env.search round)
    (env.synth round) queries language provider requestedModel true
    searchProvider false maxResults).results

/-- `reviewResult.queries || []`. -/
def jsOrEmptyArr (q : Json) : Json := if q.truthy then q else .arr []

/-- `if (!additionalQueries || additionalQueries.length === 0) break`. -/
def breakCheck (q : Json) : Bool :=
  !q.truthy ||
    (match jsLength q with
     | some n => n = 0
     | none => false)

/-- Outcome of the iteration loop of `performDirectResearch`, with ghost
observations: the number of review calls, the number of additional
search/synthesis rounds, the final value of `currentIteration`, and the trace
of the learning list after each completed pass. -/
structure LoopOut where
  learnings : List String
  reviews : Nat
  searchRounds : Nat
  finalIter : Nat
  trace : List (List String)
  deriving Repr

/-- The `while (currentIteration < maxIterations)` loop of
`performDirectResearch`.  The fuel argument is structural bookkeeping only:
`performDirectResearchFull` supplies `maxIterations`, which always suffices
because `iter` starts at 1 and increases every pass. -/
def researchLoopGo (env : ResearchEnv) (query language provider : String)
    (requestedModel : Option String) (searchProvider : String)
    (maxResults : Nat) (maxIterations : Nat) :
    Nat → Nat → List String → LoopOut
  | 0, iter, L => ⟨L, 0, 0, iter, []⟩
  | fuel + 1, iter, L =>
    if iter < maxIterations then
      let reviewResult :=
        reviewSearchResults env.llm (env.review iter) query L language provider
          requestedModel
      let additionalQueries := jsOrEmptyArr reviewResult.queries
      if breakCheck additionalQueries then ⟨L, 1, 0, iter, []⟩
      else
        let newLearnings :=
          extractLearnings (runRound env iter additionalQueries language provider
            requestedModel searchProvider maxResults)
        let L1 := L ++ newLearnings
        let rest :=
          researchLoopGo env query language provider requestedModel searchProvider
            maxResults maxIterations fuel (iter + 1) L1
        ⟨rest.learnings, rest.reviews + 1, rest.searchRounds + 1, rest.finalIter,
          L1 :: rest.trace⟩
    else ⟨L, 0, 0, iter, []⟩

/-- The observable outcome of one `performDirectResearch` session, with ghost
observations used only by theorems. -/
structure RunStats where
  report : String
  finalLearnings : List String
  reviews : Nat
  searchRounds : Nat
  finalIter : Nat
  trace : List (List String)
  deriving Repr

/-- The learnings collected from the initial search/synthesis round
(`allLearnings` before the empty-guard push). -/
def collectedLearnings (env : ResearchEnv) (query language provider : String)
    (model : Option String) (searchProvider : String) (maxR : Nat) : List String :=
  extractLearnings (runRound env 0
    (generateSearchQueries env.llm env.genQ query language provider model).queries
    language provider model searchProvider maxR)

/-- `allLearnings` after the empty-guard push of the basic fallback
learning. -/
def initialLearnings (env : ResearchEnv) (query language provider : String)
    (model : Option String) (searchProvider : String) (maxR : Nat) : List String :=
  if (collectedLearnings env query language provider model searchProvider maxR).length = 0 then
    collectedLearnings env query language provider model searchProvider maxR ++
      ["Basic information about " ++ query ++
        " would typically include key facts and data points relevant to the topic."]
  else collectedLearnings env query language provider model searchProvider maxR

/-- `performDirectResearch(query, language, provider, model, searchProvider,
maxIterations, options)`: generate initial queries, run the first
search/synthesis round, push the basic fallback learning if the round yielded
none, run the bounded review loop, and write the final report.  Every helper
is total, so the outer catch (and the per-step catches) of the source are
unreachable and the whole pipeline is a total function into `RunStats`. -/
def performDirectResearchFull (env : ResearchEnv) (query language provider : String)
    (model : Option String) (searchProvider : String) (maxIterations : Nat)
    (options : ResearchOptions) : RunStats :=
  let maxR := jsOrNat options.maxResults 5
  let loop :=
    researchLoopGo env query language provider model searchProvider maxR
      maxIterations maxIterations 1
      (initialLearnings env query language provider model searchProvider maxR)
  let wr := writeFinalReport env.llm env.reportLLM query loop.learnings language provider model
  { report := wr.report
    finalLearnings := loop.learnings
    reviews := loop.reviews
    searchRounds := 1 + loop.searchRounds
    finalIter := loop.finalIter
    trace := collectedLearnings env query language provider model searchProvider maxR ::
      initialLearnings env query language provider model searchProvider maxR ::
      loop.trace }

/-- `performDirectResearch`: the returned report string. -/
def performDirectResearch (env : ResearchEnv) (query language provider : String)
    (model : Option String) (searchProvider : String) (maxIterations : Nat)
    (options : ResearchOptions) : String :=
  (performDirectResearchFull env query language provider model searchProvider
    maxIterations options).report

/-- A concrete research environment in which every model call succeeds: the
query generator returns one query, the first review returns one follow-up
query, later reviews return `[]`, synthesis returns two enumerated learnings,
and the report writer returns a small markdown report. -/
def researchWitnessEnv : ResearchEnv where
  genQ := fun _ => .ok "[\x7b\"query\":\"q1\",\"researchGoal\":\"g1\"\x7d]"
  synth := fun _ _ _ => .ok "1. fact one\n2. fact two"
  review := fun r _ =>
    if r = 1 then .ok "[\x7b\"query\":\"q2\",\"researchGoal\":\"g2\"\x7d]" else .ok "[]"
  reportLLM := fun _ => .ok "# Report\nbody"
  search := fun _ _ => {}

/-- A concrete research environment in which every step succeeds but the
final report model call returns the empty string. -/
def emptyReportEnv : ResearchEnv where
  genQ := fun _ => .ok "[]"
  synth := fun _ _ _ => .ok ""
  review := fun _ _ => .ok "[]"
  reportLLM := fun _ => .ok ""
  search := fun _ _ => {}

/-! ## Helper lemmas -/

theorem passHeaders_ne_nil : ∀ (fuel : Nat) (cs : List Char), cs ≠ [] →
    passHeaders fuel cs ≠ []
  | 0, cs, h => by simpa [passHeaders] using h
  | fuel + 1, [], h => absurd rfl h
  | fuel + 1, c :: rest, _ => by
    simp only [passHeaders]
    split <;> [split <;> simp; simp]

theorem passParagraphs_ne_nil : ∀ (fuel : Nat) (cs : List Char), cs ≠ [] →
    passParagraphs fuel cs ≠ []
  | 0, cs, h => by simpa [passParagraphs] using h
  | fuel + 1, [], h => absurd rfl h
  | fuel + 1, c :: rest, _ => by
    simp only [passParagraphs]
    split
    · split <;> simp
      split <;> simp
    · simp

theorem passBullets_ne_nil : ∀ (fuel : Nat) (cs : List Char), cs ≠ [] →
    passBullets fuel cs ≠ []
  | 0, cs, h => by simpa [passBullets] using h
  | fuel + 1, [], h => absurd rfl h
  | fuel + 1, c :: rest, _ => by
    simp only [passBullets]
    split
    · split <;> simp
      split <;> simp
    · simp

theorem passNumbered_ne_nil : ∀ (fuel : Nat) (cs : List Char), cs ≠ [] →
    passNumbered fuel cs ≠ []
  | 0, cs, h => by simpa [passNumbered] using h
  | fuel + 1, [], h => absurd rfl h
  | fuel + 1, c :: rest, _ => by
    simp only [passNumbered]
    split
    · split <;> simp
      split <;> simp
    · simp

theorem passTableBlank_ne_nil : ∀ (fuel : Nat) (cs : List Char), cs ≠ [] →
    passTableBlank fuel cs ≠ []
  | 0, cs, h => by simpa [passTableBlank] using h
  | fuel + 1, [], h => absurd rfl h
  | fuel + 1, c :: rest, _ => by
    simp only [passTableBlank]
    split
    · split
      · split <;> simp
        split <;> simp [List.takeWhile]
      · simp
    · simp

theorem passSqueezeNewlines_ne_nil : ∀ (fuel : Nat) (cs : List Char), cs ≠ [] →
    passSqueezeNewlines fuel cs ≠ []
  | 0, cs, h => by simpa [passSqueezeNewlines] using h
  | fuel + 1, [], h => absurd rfl h
  | fuel + 1, c :: rest, _ => by
    simp only [passSqueezeNewlines]
    split <;> [split <;> simp; simp]

/-- A non-empty string normalizes to a non-empty string: every replacement of
`normalizeMarkdownNewlines` maps non-empty text to non-empty text. -/
theorem normalizeMarkdownNewlines_ne_empty (s : String) (h : s ≠ "") :
    normalizeMarkdownNewlines s ≠ "" := by
  have hdata : s.toList ≠ [] := by
    intro hd
    apply h
    cases s with
    | mk data => cases data with
      | nil => rfl
      | cons a l => simp [String.toList] at hd
  unfold normalizeMarkdownNewlines
  rw [if_neg h]
  intro hmk
  have hnil : normPasses s.toList = [] := congrArg String.data hmk
  have h6 : norm6 s.toList ≠ [] := by
    unfold norm6 passTableRows
    exact passTableBlank_ne_nil _ _ (passNumbered_ne_nil _ _ (passBullets_ne_nil _ _
      (passParagraphs_ne_nil _ _ (passHeaders_ne_nil _ _ hdata))))
  exact passSqueezeNewlines_ne_nil _ _ h6 hnil

/-! ## Claims -/

/-- C6: for every input text, source label and default value, `safeJsonParse`
never raises: it always returns either a JSON value successfully parsed from
one of the cleanup stages or the given default value. -/
theorem c6_safeJsonParse_never_raises (text source : String) (defaultValue : Json) :
    safeJsonParse text source defaultValue = defaultValue ∨
      ∃ s, jsonParse s = some (safeJsonParse text source defaultValue) := by
  unfold safeJsonParse
  dsimp only
  split
  next v h1 => exact Or.inr ⟨String.mk (cleanedText text), by rw [h1]⟩
  next h1 =>
    split
    next v h2 => exact Or.inr ⟨String.mk (singleToDouble (cleanedText text)), by rw [h2]⟩
    next h2 =>
      split
      next v h3 =>
        exact Or.inr ⟨String.mk (quoteBareProps ((cleanedText text).length + 1)
          (cleanedText text)), by rw [h3]⟩
      next h3 => exact Or.inl rfl

/-- C7: the three concrete parser equations: a plain JSON array of one
query/goal object parses to itself; non-JSON text falls back to the default;
a code-fenced empty array has its fence stripped and parses to the empty
array. -/
theorem c7_parser_examples :
    safeJsonParse "[\x7b\"query\":\"a\",\"researchGoal\":\"b\"\x7d]" "parseStructured"
        (Json.arr []) =
      Json.arr [Json.obj [("query", Json.str "a"), ("researchGoal", Json.str "b")]] ∧
    safeJsonParse "not json" "parseStructured" (Json.arr []) = Json.arr [] ∧
    safeJsonParse "```json\n[]\n```" "parseStructured" (Json.arr []) = Json.arr [] :=
  ⟨rfl, rfl, rfl⟩

/-- C3: for every operation and retry policy with a fallback model configured
(and a retry budget admitting a third attempt, as the claim presupposes by
speaking of a third invocation): if the operation fails on its first two
invocations with a status code in `retryableStatusCodes` and succeeds on the
third, `withRetry` returns the success value, the operation is invoked exactly
3 times, and from the second invocation on the context model is the fallback
model — never reverted within the call. -/
theorem c3_withRetry_downgrades_once {α : Type}
    (fn : Nat → Option String → Except ErrInfo α) (opts : RetryOptions)
    (e0 e1 : ErrInfo) (s0 s1 : Nat) (v : α)
    (hfb : opts.fallbackModel ≠ "")
    (hctx : truthyOptStr opts.contextModel = true)
    (hmr : 2 ≤ opts.maxRetries)
    (h0 : ∀ ctx, fn 0 ctx = .error e0)
    (hs0 : e0.status = some s0) (hs0m : s0 ∈ opts.retryableStatusCodes) (hs0z : s0 ≠ 0)
    (h1 : ∀ ctx, fn 1 ctx = .error e1)
    (hs1 : e1.status = some s1) (hs1m : s1 ∈ opts.retryableStatusCodes) (hs1z : s1 ≠ 0)
    (h2 : ∀ ctx, fn 2 ctx = .ok v) :
    withRetry fn opts = .ok v ∧
    (withRetryTr fn opts).2 =
      [opts.contextModel, some opts.fallbackModel, some opts.fallbackModel] := by
  obtain ⟨k, hk0⟩ := Nat.exists_eq_add_of_le hmr
  have hk : opts.maxRetries = k + 2 := by omega
  have hr0 : isRateLimitError opts e0 = true := by
    simp [isRateLimitError, hs0, hs0z, List.contains, List.elem_iff, hs0m]
  have hr1 : isRateLimitError opts e1 = true := by
    simp [isRateLimitError, hs1, hs1z, List.contains, List.elem_iff, hs1m]
  have hle0 : ¬ (opts.maxRetries ≤ 0) := by omega
  have hle1 : ¬ (opts.maxRetries ≤ 1) := by omega
  have step2 : ∀ le d, withRetryGo fn opts le (k + 1) 2 (some opts.fallbackModel) d =
      (.ok v, [some opts.fallbackModel]) := by
    intro le d
    unfold withRetryGo
    simp [truthyOptStr, hfb, h2]
  have step1 : ∀ le d, withRetryGo fn opts le (k + 1 + 1) 1 opts.contextModel d =
      (.ok v, [some opts.fallbackModel, some opts.fallbackModel]) := by
    intro le d
    unfold withRetryGo
    simp [hctx, hfb, h1, hle1, hr1, step2]
  have step0 : withRetryGo fn opts {} (k + 2 + 1) 0 opts.contextModel opts.initialDelay =
      (.ok v, [opts.contextModel, some opts.fallbackModel, some opts.fallbackModel]) := by
    unfold withRetryGo
    rw [show k + 2 = k + 1 + 1 from rfl]
    simp [h0, hle0, hr0, step1]
  have key : withRetryTr fn opts =
      (.ok v, [opts.contextModel, some opts.fallbackModel, some opts.fallbackModel]) := by
    unfold withRetryTr
    rw [hk]
    exact step0
  exact ⟨by unfold withRetry; rw [key], by rw [key]⟩

/-- A concrete operation failing twice with a retryable 429 and then
succeeding, for the C3 witness. -/
def c3WitnessFn : Nat → Option String → Except ErrInfo Nat := fun n _ =>
  if n < 2 then .error { message := "rate limited", status := some 429 } else .ok 42

/-- Witness for C3 at a concrete operation and the default policy with a
configured context model. -/
theorem c3_witness :
    withRetry c3WitnessFn { contextModel := some "gemini-1.5-pro" } = .ok 42 ∧
    (withRetryTr c3WitnessFn { contextModel := some "gemini-1.5-pro" }).2 =
      [some "gemini-1.5-pro", some "gemini-1.5-flash", some "gemini-1.5-flash"] :=
  c3_withRetry_downgrades_once c3WitnessFn { contextModel := some "gemini-1.5-pro" }
    { message := "rate limited", status := some 429 }
    { message := "rate limited", status := some 429 } 429 429 42
    (by decide) (by decide) (by decide)
    (fun _ => rfl) rfl (by decide) (by decide)
    (fun _ => rfl) rfl (by decide) (by decide)
    (fun _ => rfl)

/-- C9: with the global mock flag set, requesting provider kind "google"
yields the very same provider value as requesting "mock" with the same model
and options, so `generateContent` is indistinguishable between the two for
every request. -/
theorem c9_mock_mode_indistinguishable (env : ProviderEnv) (model : Option String)
    (opts : ProviderOpts) (apiKey : Option String)
    (oracle : Provider → GenRequest → Except ErrInfo String) (req : GenRequest)
    (hmock : env.useMockMode = true) :
    createProvider env "google" model opts apiKey =
      createProvider env "mock" model opts apiKey ∧
    generateContent oracle (createProvider env "google" model opts apiKey) req =
      generateContent oracle (createProvider env "mock" model opts apiKey) req := by
  have h : createProvider env "google" model opts apiKey =
      createProvider env "mock" model opts apiKey := by
    unfold createProvider
    rw [hmock]
    simp
  exact ⟨h, by rw [h]⟩

/-- Witness for C9 at a concrete environment, model and request. -/
theorem c9_witness :
    createProvider { useMockMode := true } "google" (some "gemini-1.5-pro") {} none =
      createProvider { useMockMode := true } "mock" (some "gemini-1.5-pro") {} none ∧
    generateContent (fun _ _ => .error {})
        (createProvider { useMockMode := true } "google" (some "gemini-1.5-pro") {} none)
        { contents := [] } =
      generateContent (fun _ _ => .error {})
        (createProvider { useMockMode := true } "mock" (some "gemini-1.5-pro") {} none)
        { contents := [] } :=
  c9_mock_mode_indistinguishable { useMockMode := true } (some "gemini-1.5-pro") {} none
    (fun _ _ => .error {}) { contents := [] } rfl

/-- Every result object produced by one `runSearchTasks` task has an empty
`sources` list: `performSearch` returns a JS Array (whatever the backend did),
whose `.results` property is `undefined`. -/
theorem runSearchTask_sources_nil (settings : AppSettings) (useMockMode : Bool)
    (c : SearchCallEnv) (synth : Nat → Except ErrInfo String) (elem : Json)
    (language : String) (enableSearch : Bool) (searchProvider : String)
    (searchMaxResult : Nat) (networkingModel : String) (r : TaskResult)
    (h : (runSearchTask settings useMockMode c synth elem language enableSearch
        searchProvider searchMaxResult networkingModel).1 = some r) :
    r.sources = [] := by
  unfold runSearchTask at h
  split at h
  · simp at h
  · simp only [Option.some.injEq] at h
    subst h
    simp only
    split <;> rfl

theorem runTasksGo_sources_nil (settings : AppSettings) (useMockMode : Bool)
    (searchEnvs : Nat → SearchCallEnv) (synth : Nat → Nat → Except ErrInfo String)
    (language : String) (enableSearch : Bool) (searchProvider : String)
    (searchMaxResult : Nat) (networkingModel : String) :
    ∀ (i : Nat) (elems : List Json) (r : TaskResult),
      r ∈ runTasksGo settings useMockMode searchEnvs synth language enableSearch
        searchProvider searchMaxResult networkingModel i elems →
      r.sources = []
  | i, [], r, h => absurd h (List.not_mem_nil r)
  | i, e :: es, r, h => by
    unfold runTasksGo at h
    split at h
    next r0 hr0 =>
      rcases List.mem_cons.mp h with h1 | h1
      · exact h1 ▸ runSearchTask_sources_nil _ _ _ _ _ _ _ _ _ _ r0 hr0
      · exact runTasksGo_sources_nil _ _ _ _ _ _ _ _ _ (i + 1) es r h1
    next =>
      exact runTasksGo_sources_nil _ _ _ _ _ _ _ _ _ (i + 1) es r h

/-- C4: for every list of queries and every behaviour of the search backend,
every result object returned by `runSearchTasks` has `sources = []`, and the
synthesis prompt actually handed to the model is always built from an empty
source list (so no `SearchResult` content reaches it): `runSearchTasks` passes
an options object where `performSearch` expects a positional provider string,
and reads a `.results` property off the array `performSearch` returns. -/
theorem c4_search_results_discarded (llm : LlmEnv) (settings : AppSettings)
    (useMockMode : Bool) (searchEnvs : Nat → SearchCallEnv)
    (synth : Nat → Nat → Except ErrInfo String) (queries : Json)
    (language provider : String) (requestedModel : Option String)
    (enableSearch : Bool) (searchProvider : String) (parallelSearch : Bool)
    (searchMaxResult : Nat) :
    (∀ r ∈ (runSearchTasks llm settings useMockMode searchEnvs synth queries
        language provider requestedModel enableSearch searchProvider
        parallelSearch searchMaxResult).results, r.sources = []) ∧
    (∀ (c : SearchCallEnv) (synth1 : Nat → Except ErrInfo String) (elem : Json)
        (networkingModel : String),
      (runSearchTask settings useMockMode c synth1 elem language enableSearch
          searchProvider searchMaxResult networkingModel).2 = none ∨
      ∃ q g, (runSearchTask settings useMockMode c synth1 elem language
          enableSearch searchProvider searchMaxResult networkingModel).2 =
        some (processResultPrompt q g [] ++ "\n\n" ++
          getResponseLanguagePrompt language)) := by
  constructor
  · intro r hr
    unfold runSearchTasks at hr
    rcases queries with _ | _ | _ | _ | elems | _ <;> simp only at hr
    rotate_left
    · exact absurd hr (List.not_mem_nil r)
    case arr =>
      split at hr
      · exact absurd hr (List.not_mem_nil r)
      · exact runTasksGo_sources_nil _ _ _ _ _ _ _ _ _ 0 elems r hr
    all_goals exact absurd hr (List.not_mem_nil r)
  · intro c synth1 elem networkingModel
    unfold runSearchTask
    split
    · exact Or.inl rfl
    · refine Or.inr ⟨jsToString ((elem.get? "query").getD .null),
        jsTemplate (elem.get? "researchGoal"), ?_⟩
      simp only [Option.some.injEq]
      split <;> rfl

/-- A live-looking search backend for witnesses: a key is present and the
fetch succeeds with one well-formed result. -/
def liveSearchCallEnv : SearchCallEnv :=
  { shuffledFirstKey := "k",
    fetch := .ok { ok := true, results := some [⟨some "t", some "c", some "u"⟩] } }

/-- Witness for C4: a concrete run against a live-looking backend whose
fetched result is nonetheless dropped from the returned result object. -/
theorem c4_witness :
    (⟨Json.str "q", Json.str "", [], ["learn"]⟩ : TaskResult).sources = [] := by
  have h := (c4_search_results_discarded {} {} false (fun _ => liveSearchCallEnv)
    (fun _ _ => .ok "learn") (Json.arr [Json.obj [("query", Json.str "q")]])
    "en-US" "google" none true "tavily" false 5).1
  refine h ⟨Json.str "q", Json.str "", [], ["learn"]⟩ ?_
  rw [show (runSearchTasks {} {} false (fun _ => liveSearchCallEnv)
      (fun _ _ => .ok "learn") (Json.arr [Json.obj [("query", Json.str "q")]])
      "en-US" "google" none true "tavily" false 5).results =
        [⟨Json.str "q", Json.str "", [], ["learn"]⟩] from rfl]
  exact List.mem_singleton_self _

/-- C5 (amended): `performSearch` returns the deterministic mock results when
search is globally disabled, when the requested provider is "mock" or
unrecognized, and when the tavily call yields no results (missing credentials
or a failed live call, both absorbed to `[]` inside `tavily`) while the
use-mock policy is enabled; and its result does not depend on the global
mock-mode flag, which the function never reads. -/
theorem c5_performSearch_mock_paths (settings : AppSettings) (useMockMode : Bool)
    (c : SearchCallEnv) (query : String) (maxResults : Nat) :
    (settings.enableSearch = false → ∀ sp,
      performSearch settings useMockMode c query sp maxResults = mockSearch query) ∧
    (settings.enableSearch = true →
      performSearch settings useMockMode c query (.str "mock") maxResults =
        mockSearch query) ∧
    (settings.enableSearch = true → ∀ s, s ≠ "tavily" → s ≠ "mock" →
      performSearch settings useMockMode c query (.str s) maxResults =
        mockSearch query) ∧
    (settings.enableSearch = true → tavily c = [] →
      settings.useMockWhenKeysAreMissing = true →
      performSearch settings useMockMode c query (.str "tavily") maxResults =
        mockSearch query) ∧
    (∀ sp, performSearch settings useMockMode c query sp maxResults =
      performSearch settings false c query sp maxResults) := by
  refine ⟨fun hd sp => ?_, fun he => ?_, fun he s hs1 hs2 => ?_, fun he ht hp => ?_,
    fun sp => rfl⟩
  · unfold performSearch
    rw [hd]
    rfl
  · unfold performSearch
    rw [he]
    rfl
  · unfold performSearch
    rw [he]
    simp [hs1, hs2]
  · unfold performSearch
    rw [he]
    simp [ht, hp]

/-- Counterexample to C5 as stated: with the global mock-mode flag set (and
search enabled, credentials present, a live tavily response), `performSearch`
returns the live results, not the mock results — the flag alone is not
sufficient. -/
theorem c5_counterexample :
    performSearch { enableSearch := true, useMockWhenKeysAreMissing := true } true
        liveSearchCallEnv "q" (.str "tavily") 5 = [⟨"t", "c", "u"⟩] ∧
    [(⟨"t", "c", "u"⟩ : SearchResult)] ≠ mockSearch "q" := by
  constructor
  · rfl
  · decide

/-- Witness for C5 (amended) at a concrete credential-less environment. -/
theorem c5_witness :
    performSearch { enableSearch := true, useMockWhenKeysAreMissing := true } true
        { shuffledFirstKey := "", fetch := .error {} } "q" (.str "tavily") 5 =
      mockSearch "q" :=
  (c5_performSearch_mock_paths { enableSearch := true, useMockWhenKeysAreMissing := true }
    true { shuffledFirstKey := "", fetch := .error {} } "q" 5).2.2.2.1 rfl rfl rfl

/-- If the operation succeeds at the first attempt, `withRetry` returns that
value. -/
theorem withRetry_first_ok {α : Type} (fn : Nat → Option String → Except ErrInfo α)
    (opts : RetryOptions) (v : α) (h : fn 0 opts.contextModel = .ok v) :
    withRetry fn opts = .ok v := by
  unfold withRetry withRetryTr withRetryGo
  simp [h]

/-- C8 (amended): whenever the model call totally fails (the retry budget is
exhausted) or the model output fails every parse stage, `generateSearchQueries`
returns exactly the three deterministic default queries derived from the topic
— a list of three, hence non-empty; however, a model output that parses to an
empty array yields zero queries (see the counterexample). -/
theorem c8_default_queries_on_failure (llm : LlmEnv)
    (genQ : Nat → Except ErrInfo String) (topic language provider : String)
    (requestedModel : Option String) :
    (∀ e, genQueriesRetryResult llm genQ topic provider requestedModel = .error e →
      generateSearchQueries llm genQ topic language provider requestedModel =
        { queries := defaultQueriesJson topic, error := some e.message }) ∧
    (∀ content, genQ 0 = .ok content →
      jsonParse (String.mk (cleanedText content)) = none →
      jsonParse (String.mk (singleToDouble (cleanedText content))) = none →
      jsonParse (String.mk (quoteBareProps ((cleanedText content).length + 1)
        (cleanedText content))) = none →
      (generateSearchQueries llm genQ topic language provider requestedModel).queries =
        defaultQueriesJson topic) ∧
    jsLength (defaultQueriesJson topic) = some 3 := by
  refine ⟨fun e he => ?_, fun content hok p1 p2 p3 => ?_, rfl⟩
  · unfold generateSearchQueries
    rw [he]
  · have hparse : safeJsonParse content "generateSearchQueries"
        (defaultQueriesJson topic) = defaultQueriesJson topic := by
      unfold safeJsonParse
      simp only [p1, p2, p3]
    have hret : genQueriesRetryResult llm genQ topic provider requestedModel =
        .ok (defaultQueriesJson topic) := by
      unfold genQueriesRetryResult
      refine withRetry_first_ok _ _ _ ?_
      rw [hok]
      simp [Except.map, hparse]
    unfold generateSearchQueries
    rw [hret]

/-- Counterexample to C8 as stated: a model response that is the valid JSON
text `[]` parses successfully, so `generateSearchQueries` returns an empty
queries list — it does not always produce a non-empty list. -/
theorem c8_counterexample :
    (generateSearchQueries {} (fun _ => .ok "[]") "Quantum computing" "en-US"
      "google" none).queries = Json.arr [] := rfl

/-- Witness for C8 (amended): unparseable model output yields exactly the
three defaults. -/
theorem c8_witness :
    (generateSearchQueries {} (fun _ => .ok "not json") "T" "en-US" "google"
        none).queries = defaultQueriesJson "T" :=
  (c8_default_queries_on_failure {} (fun _ => .ok "not json") "T" "en-US"
    "google" none).2.1 "not json" rfl rfl rfl rfl

/-- Review and search-round counts of the loop stay within the remaining
iteration budget, and the iteration counter never exceeds `N`. -/
theorem researchLoopGo_bounds (env : ResearchEnv) (query language provider : String)
    (requestedModel : Option String) (searchProvider : String) (maxResults : Nat)
    (N : Nat) :
    ∀ (fuel iter : Nat) (L : List String), iter ≤ N →
      (researchLoopGo env query language provider requestedModel searchProvider
        maxResults N fuel iter L).reviews ≤ N - iter ∧
      (researchLoopGo env query language provider requestedModel searchProvider
        maxResults N fuel iter L).searchRounds ≤ N - iter ∧
      (researchLoopGo env query language provider requestedModel searchProvider
        maxResults N fuel iter L).finalIter ≤ N := by
  intro fuel
  induction fuel with
  | zero =>
    intro iter L h
    simp only [researchLoopGo]
    omega
  | succ fuel ih =>
    intro iter L h
    unfold researchLoopGo
    split
    next hlt =>
      dsimp only
      split
      next => dsimp only; omega
      next =>
        have := ih (iter + 1) (L ++ extractLearnings (runRound env iter
          (jsOrEmptyArr (reviewSearchResults env.llm (env.review iter) query L
            language provider requestedModel).queries) language provider
          requestedModel searchProvider maxResults)) (by omega)
        dsimp only
        omega
    next hge =>
      dsimp only
      omega

/-- C2: for `maxIterations = N ≥ 1`, a session performs at most `N - 1` review
calls and at most `N` searching/synthesizing rounds (the initial round
included), the iteration counter never exceeds `N`, and a review pass that
yields zero new queries terminates the loop immediately with nothing added. -/
theorem c2_iteration_bounds (env : ResearchEnv) (query language provider : String)
    (model : Option String) (searchProvider : String) (N : Nat)
    (options : ResearchOptions) (hN : 1 ≤ N) :
    (performDirectResearchFull env query language provider model searchProvider N
      options).reviews ≤ N - 1 ∧
    (performDirectResearchFull env query language provider model searchProvider N
      options).searchRounds ≤ N ∧
    (performDirectResearchFull env query language provider model searchProvider N
      options).finalIter ≤ N ∧
    (∀ (fuel iter : Nat) (L : List String), iter < N →
      breakCheck (jsOrEmptyArr (reviewSearchResults env.llm (env.review iter) query
        L language provider model).queries) = true →
      researchLoopGo env query language provider model searchProvider
        (jsOrNat options.maxResults 5) N (fuel + 1) iter L = ⟨L, 1, 0, iter, []⟩) := by
  have hb := researchLoopGo_bounds env query language provider model searchProvider
    (jsOrNat options.maxResults 5) N N 1
    (initialLearnings env query language provider model searchProvider
      (jsOrNat options.maxResults 5)) hN
  refine ⟨?_, ?_, ?_, fun fuel iter L hlt hbrk => ?_⟩
  · exact le_trans hb.1 (le_refl _)
  · show 1 + (researchLoopGo env query language provider model searchProvider
      (jsOrNat options.maxResults 5) N N 1
      (initialLearnings env query language provider model searchProvider
        (jsOrNat options.maxResults 5))).searchRounds ≤ N
    omega
  · exact hb.2.2
  · unfold researchLoopGo
    rw [if_pos hlt]
    dsimp only
    rw [if_pos hbrk]

/-- Each loop pass only appends to the learning list: the trace starting at
the entry list is a prefix chain whose last element is the final learning
list. -/
theorem researchLoopGo_prefixChain (env : ResearchEnv) (query language provider : String)
    (requestedModel : Option String) (searchProvider : String) (maxResults : Nat)
    (N : Nat) :
    ∀ (fuel iter : Nat) (L : List String),
      List.Chain' List.IsPrefix (L :: (researchLoopGo env query language provider
        requestedModel searchProvider maxResults N fuel iter L).trace) ∧
      (researchLoopGo env query language provider requestedModel searchProvider
        maxResults N fuel iter L).learnings =
        ((L :: (researchLoopGo env query language provider requestedModel
          searchProvider maxResults N fuel iter L).trace).getLast?).getD [] := by
  intro fuel
  induction fuel with
  | zero =>
    intro iter L
    simp [researchLoopGo]
  | succ fuel ih =>
    intro iter L
    unfold researchLoopGo
    split
    next hlt =>
      dsimp only
      split
      next => simp
      next =>
        have step := ih (iter + 1) (L ++ extractLearnings (runRound env iter
          (jsOrEmptyArr (reviewSearchResults env.llm (env.review iter) query L
            language provider requestedModel).queries) language provider
          requestedModel searchProvider maxResults))
        dsimp only
        refine ⟨List.Chain'.cons (List.prefix_append _ _) step.1, ?_⟩
        rw [List.getLast?_cons_cons]
        exact step.2
    next hge => simp

instance : IsTrans (List String) List.IsPrefix :=
  ⟨fun _ _ _ h1 h2 => h1.trans h2⟩

/-- C10: throughout a session the learning set is append-only — the trace of
learning lists (after the initial collection, after the empty-guard push, and
after each loop pass) is pairwise prefix-ordered, and its last entry is
exactly the list handed to the final report writer. -/
theorem c10_learnings_append_only (env : ResearchEnv)
    (query language provider : String) (model : Option String)
    (searchProvider : String) (N : Nat) (options : ResearchOptions) :
    List.Pairwise List.IsPrefix
      (performDirectResearchFull env query language provider model searchProvider N
        options).trace ∧
    ((performDirectResearchFull env query language provider model searchProvider N
      options).trace.getLast?).getD [] =
      (performDirectResearchFull env query language provider model searchProvider N
        options).finalLearnings := by
  have hloop := researchLoopGo_prefixChain env query language provider model
    searchProvider (jsOrNat options.maxResults 5) N N 1
    (initialLearnings env query language provider model searchProvider
      (jsOrNat options.maxResults 5))
  constructor
  · rw [← List.chain'_iff_pairwise]
    refine List.Chain'.cons ?_ hloop.1
    unfold initialLearnings
    split
    · exact List.prefix_append _ _
    · exact List.prefix_refl _
  · show (List.getLast? (_ :: _ :: _)).getD [] = _
    rw [List.getLast?_cons_cons]
    exact hloop.2.symm

/-- Witness for C2 at a concrete environment and `maxIterations = 2`. -/
theorem c2_witness :
    (performDirectResearchFull researchWitnessEnv "topic" "en-US" "google" none
      "tavily" 2 {}).reviews ≤ 1 ∧
    (performDirectResearchFull researchWitnessEnv "topic" "en-US" "google" none
      "tavily" 2 {}).searchRounds ≤ 2 ∧
    (performDirectResearchFull researchWitnessEnv "topic" "en-US" "google" none
      "tavily" 2 {}).finalIter ≤ 2 :=
  ⟨(c2_iteration_bounds researchWitnessEnv "topic" "en-US" "google" none "tavily" 2
      {} (by decide)).1,
   (c2_iteration_bounds researchWitnessEnv "topic" "en-US" "google" none "tavily" 2
      {} (by decide)).2.1,
   (c2_iteration_bounds researchWitnessEnv "topic" "en-US" "google" none "tavily" 2
      {} (by decide)).2.2.1⟩

/-- The degraded error report of `writeFinalReport` is never empty. -/
theorem finalReportErrorText_ne_empty (topic msg : String) (learnings : List String) :
    finalReportErrorText topic msg learnings ≠ "" := by
  unfold finalReportErrorText
  intro h
  have hl := congrArg String.length h
  simp only [String.length_append] at hl
  rw [show ("# Research Report on " : String).length = 21 from rfl,
    show ("" : String).length = 0 from rfl] at hl
  omega

/-- C1 (amended): `performDirectResearch` is a total function into strings
(never throws); the returned string can be empty only when the final report
model call succeeds with text whose normalization is empty, and whenever the
final report retries are exhausted the result is the non-empty degraded error
report built from the accumulated learnings. -/
theorem c1_always_returns_report (env : ResearchEnv)
    (query language provider : String) (model : Option String)
    (searchProvider : String) (N : Nat) (options : ResearchOptions) :
    (performDirectResearch env query language provider model searchProvider N
        options = "" →
      ∃ raw, reportRetryResult env.llm env.reportLLM provider model = .ok raw ∧
        normalizeMarkdownNewlines raw = "") ∧
    (∀ e, reportRetryResult env.llm env.reportLLM provider model = .error e →
      performDirectResearch env query language provider model searchProvider N
          options =
        normalizeMarkdownNewlines (finalReportErrorText query e.message
          (performDirectResearchFull env query language provider model
            searchProvider N options).finalLearnings) ∧
      performDirectResearch env query language provider model searchProvider N
        options ≠ "") := by
  have hkey : performDirectResearch env query language provider model searchProvider
      N options =
      (writeFinalReport env.llm env.reportLLM query
        (performDirectResearchFull env query language provider model searchProvider
          N options).finalLearnings language provider model).report := rfl
  constructor
  · intro h
    rw [hkey] at h
    unfold writeFinalReport at h
    cases hr : reportRetryResult env.llm env.reportLLM provider model with
    | ok raw =>
      refine ⟨raw, rfl, ?_⟩
      simpa [hr] using h
    | error e =>
      simp only [hr] at h
      exact absurd h (normalizeMarkdownNewlines_ne_empty _
        (finalReportErrorText_ne_empty _ _ _))
  · intro e hr
    rw [hkey]
    unfold writeFinalReport
    simp only [hr]
    constructor
    · trivial
    · exact normalizeMarkdownNewlines_ne_empty _
        (finalReportErrorText_ne_empty _ _ _)

/-- Counterexample to C1 as stated: when every step succeeds but the final
report model call returns the empty string, `performDirectResearch` returns
the empty string — the result is not always non-empty. -/
theorem c1_counterexample :
    performDirectResearch emptyReportEnv "Quantum computing" "en-US" "google" none
      "tavily" 1 {} = "" := rfl

/-- Witness for C1 (amended), instantiated where the report is empty: the
emptiness is traceable to a successful model call returning empty text. -/
theorem c1_witness :
    ∃ raw, reportRetryResult emptyReportEnv.llm emptyReportEnv.reportLLM "google"
        none = .ok raw ∧ normalizeMarkdownNewlines raw = "" :=
  (c1_always_returns_report emptyReportEnv "Quantum computing" "en-US" "google"
    none "tavily" 1 {}).1 rfl

end DeepResearch
